import Mathlib

/-!
# Verification of the frame sampling engine of `runanalysis.ai`

Shallow embedding of the two frame samplers of the repository:

* the interactive (client) sampler `VideoFrameExtractor` of
  `src/public/js/video-utils-new.js` — the first class (lines 5–253) with its
  `loadVideo` timestamp planner and the `extractFrames` capture loop, and the
  second class (lines 361–1089) with its option handling, `extractFrames`
  entry guard and `extractFrameSequence` recursion;
* the batch (server) sampler `extractVideoFrames` / `getVideoDuration` of
  `src/server/index.js` (lines 679–799).

Numbers are modelled as exact rationals (`ℚ`).  The one place where the
IEEE-754 special value `NaN` is observable in the control flow of the source
(a `NaN` video duration flowing through `Math.min`/`Math.ceil` and the
`totalFrames <= 0` guard of `loadVideo`) is modelled by the two-constructor
type `JSNum` whose operations follow the JavaScript semantics for `NaN`
(arithmetic propagates it, every comparison with it is false).
-/

/- ## Timestamp planner of the first client extractor
`src/public/js/video-utils-new.js`, `loadVideo` lines 62–72 and
`extractFrames` lines 143–149. -/

/-- Line 63: `const duration = Math.min(video.duration, this.maxDuration);`. -/
def effectiveDuration (duration maxDuration : ℚ) : ℚ :=
  min duration maxDuration

/-- Lines 64–67:
`const totalFrames = Math.min(Math.ceil(duration * this.frameRate),
this.frameRate * this.maxDuration);` where `duration` is already the
effective (capped) duration.  Note that the second argument of `Math.min`
need not be an integer, so the result is a rational. -/
def totalFramesQ (duration frameRate maxDuration : ℚ) : ℚ :=
  min ((⌈effectiveDuration duration maxDuration * frameRate⌉ : ℤ) : ℚ)
    (frameRate * maxDuration)

/-- The number of iterations of the loop
`for (let i = 0; i < totalFrames; i++)` (line 146): the number of naturals
`i` with `(i : ℚ) < totalFrames`.  The lemma `natCast_lt_iff_lt_ceil_toNat`
below certifies that this is exactly `⌈totalFrames⌉.toNat`. -/
def frameCount (duration frameRate maxDuration : ℚ) : ℕ :=
  (⌈totalFramesQ duration frameRate maxDuration⌉).toNat

/-- Lines 143 and 149: `const timeBetweenFrames = duration / totalFrames;`
and `const time = Math.min(i * timeBetweenFrames, duration - 0.1);`. -/
def frameTimestamp (duration frameRate maxDuration : ℚ) (i : ℕ) : ℚ :=
  min ((i : ℚ) *
      (effectiveDuration duration maxDuration /
        totalFramesQ duration frameRate maxDuration))
    (effectiveDuration duration maxDuration - 1/10)

/-- The full timestamp plan of the first client extractor: the times visited
by the loop of lines 146–149, in order. -/
def timestampPlan (duration frameRate maxDuration : ℚ) : List ℚ :=
  (List.range (frameCount duration frameRate maxDuration)).map
    (frameTimestamp duration frameRate maxDuration)

/- ## The planner as the specification words it
Modelled from the spec for comparison (refinement claims): §4.1 states
`totalFrames = ceil(effectiveDuration * config.rate)` with
`timestamps[i] = min(i * (effectiveDuration/totalFrames),
effectiveDuration - 0.1)` and no further cap. -/

/-- Modelled from the spec: `totalFrames = ceil(effectiveDuration * rate)`
(spec §4.1), without the source's extra `rate * maxDuration` cap. -/
def specTotalFrames (duration frameRate maxDuration : ℚ) : ℤ :=
  ⌈effectiveDuration duration maxDuration * frameRate⌉

/-- Modelled from the spec: `timestamps[i] = min(i * (effectiveDuration /
totalFrames), effectiveDuration - 0.1)` with the spec's `totalFrames`. -/
def specTimestamp (duration frameRate maxDuration : ℚ) (i : ℕ) : ℚ :=
  min ((i : ℚ) *
      (effectiveDuration duration maxDuration /
        ((specTotalFrames duration frameRate maxDuration : ℤ) : ℚ)))
    (effectiveDuration duration maxDuration - 1/10)

/-- Modelled from the spec: the timestamp list `timestamps[i]` for
`i in [0, totalFrames)` of §4.1. -/
def specPlan (duration frameRate maxDuration : ℚ) : List ℚ :=
  (List.range (specTotalFrames duration frameRate maxDuration).toNat).map
    (specTimestamp duration frameRate maxDuration)

/- ## JavaScript numbers with NaN -/

/-- A JavaScript number as far as the sampler's control flow observes it:
either an exact rational or `NaN`. -/
inductive JSNum where
  | nan : JSNum
  | num (q : ℚ) : JSNum
deriving DecidableEq

/-- JavaScript `Math.min`: returns `NaN` if either argument is `NaN`. -/
def JSNum.jsMin : JSNum → JSNum → JSNum
  | JSNum.nan, _ => JSNum.nan
  | _, JSNum.nan => JSNum.nan
  | JSNum.num a, JSNum.num b => JSNum.num (min a b)

/-- Multiplication: `NaN` propagates. -/
def JSNum.jsMul : JSNum → JSNum → JSNum
  | JSNum.nan, _ => JSNum.nan
  | _, JSNum.nan => JSNum.nan
  | JSNum.num a, JSNum.num b => JSNum.num (a * b)

/-- JavaScript `Math.ceil`: `Math.ceil(NaN) = NaN`. -/
def JSNum.jsCeil : JSNum → JSNum
  | JSNum.nan => JSNum.nan
  | JSNum.num q => JSNum.num ((⌈q⌉ : ℤ) : ℚ)

/-- The comparison `a <= b`: false whenever either side is `NaN`. -/
def JSNum.jsLe : JSNum → JSNum → Bool
  | JSNum.nan, _ => false
  | _, JSNum.nan => false
  | JSNum.num a, JSNum.num b => decide (a ≤ b)

/-- The comparison `a < b`: false whenever either side is `NaN`. -/
def JSNum.jsLt : JSNum → JSNum → Bool
  | JSNum.nan, _ => false
  | _, JSNum.nan => false
  | JSNum.num a, JSNum.num b => decide (a < b)

/-- Lines 63–67 of `loadVideo` on a possibly-`NaN` metadata duration. -/
def loadVideoTotalFrames (duration : JSNum) (frameRate maxDuration : ℚ) :
    JSNum :=
  ((duration.jsMin (JSNum.num maxDuration)).jsMul
      (JSNum.num frameRate)).jsCeil.jsMin
    (JSNum.num (frameRate * maxDuration))

/- ## Capture loop of the first client extractor
`extractFrames`, lines 125–228.  One iteration of the loop (lines 146–209)
either breaks on `!this.isProcessing` (line 147), or attempts a capture:
an exception anywhere in the `try` block lands in the `catch` of lines
206–209 and continues with the next index; an all-zero `imageData` (lines
161–167) continues without pushing a frame or firing progress; otherwise a
frame is pushed and the progress callback fires (lines 171–201).  A single
attempt is modelled atomically by its observable outcome. -/

/-- Outcome of one capture attempt at an index: the pixel data obtained by
`getImageData` (line 161), or a throw anywhere inside the `try` block. -/
inductive CaptureResult where
  | pixels (data : List ℕ) : CaptureResult
  | fail : CaptureResult

/-- Line 162: `const isEmpty = !imageData.some(channel => channel !== 0);`. -/
def isEmptyFrame (data : List ℕ) : Bool :=
  !(data.any (fun channel => channel != 0))

/-- An attempt produces a frame and a progress event exactly when it neither
threw nor was classified empty. -/
def usableB : CaptureResult → Bool
  | CaptureResult.fail => false
  | CaptureResult.pixels data => !(isEmptyFrame data)

/-- Observable events of a run: the progress callback payload
`{current: i+1, total: totalFrames, time}` of lines 195–201 (`total` is the
rational `totalFrames` of `loadVideo`; `time` is the raw time, its
`toFixed(2)` formatting being presentation only), and the completion
callback of lines 212–215 carrying the preview frame times. -/
inductive Event where
  | progress (current : ℕ) (total : ℚ) (time : ℚ) : Event
  | complete (frames : List ℚ) : Event
deriving DecidableEq

/-- Whether `this.isProcessing` has been externally cleared (cancellation /
`cleanup`) when iteration `i` begins: the flag is cleared once, before
iteration `k`, and stays cleared. -/
def cancelledAt : Option ℕ → ℕ → Bool
  | none, _ => false
  | some k, i => decide (k ≤ i)

/-- The loop `for (let i = 0; i < totalFrames; i++)` of lines 146–209,
started at index `i` with `fuel` iterations remaining, accumulating the
preview-frame times and the progress events in order. -/
def runFrom (capture : ℕ → CaptureResult) (cancelAt : Option ℕ) (totalQ : ℚ)
    (ts : ℕ → ℚ) : ℕ → ℕ → List ℚ × List Event
  | _, 0 => ([], [])
  | i, fuel + 1 =>
    if cancelledAt cancelAt i then ([], [])
    else
      match capture i with
      | CaptureResult.fail => runFrom capture cancelAt totalQ ts (i + 1) fuel
      | CaptureResult.pixels data =>
        if isEmptyFrame data then runFrom capture cancelAt totalQ ts (i + 1) fuel
        else
          let rest := runFrom capture cancelAt totalQ ts (i + 1) fuel
          (ts i :: rest.1, Event.progress (i + 1) totalQ (ts i) :: rest.2)

/-- The whole of `extractFrames` (lines 125–228) after the entry guard, for
a video whose metadata reports `duration`: `loadVideo` computes
`totalFrames` and rejects when `totalFrames <= 0` (the rejection is caught,
`onError` fires and the error is rethrown, lines 219–224); otherwise the
loop runs — `frameCount` iterations for a finite duration, zero iterations
when `totalFrames` is `NaN` since `i < NaN` is false — and `onComplete`
fires unconditionally afterwards (lines 212–215) with the collected preview
frames. -/
def clientRun (duration : JSNum) (frameRate maxDuration : ℚ)
    (capture : ℕ → CaptureResult) (cancelAt : Option ℕ) :
    Except String (List ℚ × List Event) :=
  if (loadVideoTotalFrames duration frameRate maxDuration).jsLe (JSNum.num 0) =
      true then
    Except.error "Invalid video duration or frame count"
  else
    match duration with
    | JSNum.num q =>
      let res := runFrom capture cancelAt (totalFramesQ q frameRate maxDuration)
        (frameTimestamp q frameRate maxDuration) 0 (frameCount q frameRate maxDuration)
      Except.ok (res.1, res.2 ++ [Event.complete res.1])
    | JSNum.nan => Except.ok ([], [Event.complete []])

/- ## The second client extractor
`src/public/js/video-utils-new.js`, lines 361–1089. -/

/-- The configuration and run state of the second `VideoFrameExtractor`
(constructor lines 362–392) as far as `extractFrames` observes it. -/
structure ExtractorState where
  isProcessing : Bool
  frames : List ℚ
  previewFrames : List ℚ
  frameRate : ℚ
  maxDuration : ℚ
  quality : ℚ
deriving DecidableEq

/-- The `options` object of `extractFrames(file, options = {})`: `none`
models an absent (undefined, hence falsy) field. -/
structure ExtractOptions where
  frameRate : Option ℚ
  maxDuration : Option ℚ
  quality : Option ℚ
deriving DecidableEq

/-- The JavaScript truthiness fallback `options.x || this.x` of lines
593–595: an absent field and the falsy number `0` both select the current
value. -/
def orFallback (opt : Option ℚ) (current : ℚ) : ℚ :=
  match opt with
  | none => current
  | some v => if v = 0 then current else v

/-- Lines 582–595 of the second `extractFrames`: the re-entry guard
(`throw new Error('Extraction already in progress')`, thrown before any
state is touched), then the state resets of lines 587–589 and the option
application of lines 593–595.  Returns the thrown error or `ok` together
with the state after the prologue. -/
def extractFramesEntry (s : ExtractorState) (options : ExtractOptions) :
    Except String Unit × ExtractorState :=
  if s.isProcessing then (Except.error "Extraction already in progress", s)
  else
    (Except.ok (),
      { s with
        isProcessing := true
        frames := []
        previewFrames := []
        frameRate := orFallback options.frameRate s.frameRate
        maxDuration := orFallback options.maxDuration s.maxDuration
        quality := orFallback options.quality s.quality })

/-- The recursion `extractFrameSequence` (lines 712–763): sequential recursion over the
frame indices.  `capture i` is the outcome of `await this.extractFrame(...)`
for index `i` (`Except.error` models a rejected promise); the `catch` of
lines 759–762 rethrows, so a single failure propagates.  On success the
frame is recorded and, unless cancelled or at the last index, the next
index is processed.  The returned list holds the `targetTime` of each
recorded frame. -/
def extractFrameSequence (capture : ℕ → Except Unit ℚ) (cancelled : ℕ → Bool)
    (startFrame totalFrames : ℕ) (frameInterval duration : ℚ) :
    Except Unit (List ℚ) :=
  if _h : totalFrames ≤ startFrame then Except.ok []
  else
    let targetTime := min ((startFrame : ℚ) * frameInterval) duration
    match capture startFrame with
    | Except.error e => Except.error e
    | Except.ok _ =>
      if cancelled startFrame = false ∧ startFrame < totalFrames - 1 then
        match extractFrameSequence capture cancelled (startFrame + 1) totalFrames
            frameInterval duration with
        | Except.error e => Except.error e
        | Except.ok rest => Except.ok (targetTime :: rest)
      else Except.ok [targetTime]
termination_by totalFrames - startFrame
decreasing_by omega

/- ## The batch (server) sampler
`src/server/index.js`, `extractVideoFrames` lines 679–760 and
`getVideoDuration` lines 763–799. -/

/-- Outcome of one `ffmpeg` invocation for a timestamp: the artifact's byte
size as reported by `fs.promises.stat` (line 724), or a process/stat error
(caught at lines 735–738 and skipped). -/
inductive InvokeResult where
  | ok (size : ℕ) : InvokeResult
  | procError : InvokeResult
deriving DecidableEq

/-- An invocation contributes a frame record exactly when it succeeded with
a non-empty artifact (`stats.size > 0`, line 725); a zero-byte artifact is
logged as empty and unlinked (lines 731–734). -/
def keptB : InvokeResult → Bool
  | InvokeResult.ok size => decide (0 < size)
  | InvokeResult.procError => false

/-- The artifact size carried into the frame record. -/
def resSize : InvokeResult → ℕ
  | InvokeResult.ok size => size
  | InvokeResult.procError => 0

/-- Lines 703–709: `const interval = duration / (frameCount + 1);` and
`timestamps.push(Math.min(Math.floor(interval * i), duration - 0.1))` for
`i = 1 .. frameCount`.  Index `i` of the returned list is loop index
`i + 1`. -/
def serverTsFun (duration : ℚ) (fc : ℕ) (i : ℕ) : ℚ :=
  min ((⌊duration / ((fc : ℚ) + 1) * ((i : ℚ) + 1)⌋ : ℤ) : ℚ) (duration - 1/10)

/-- The batch backend's full timestamp list. -/
def serverTimestamps (duration : ℚ) (fc : ℕ) : List ℚ :=
  (List.range fc).map (serverTsFun duration fc)

/-- Lines 712–739: the per-timestamp invocations.  The source launches them
with `Promise.all` and pushes into `framePaths` in completion order; the
surviving set is collected here in plan order (the claims under proof only
concern which frames survive, not their order). -/
def serverCollectFrom (invoke : ℕ → InvokeResult) (ts : ℕ → ℚ) :
    ℕ → ℕ → List (ℚ × ℕ)
  | _, 0 => []
  | i, n + 1 =>
    match invoke i with
    | InvokeResult.procError => serverCollectFrom invoke ts (i + 1) n
    | InvokeResult.ok size =>
      if 0 < size then (ts i, size) :: serverCollectFrom invoke ts (i + 1) n
      else serverCollectFrom invoke ts (i + 1) n

/-- The batch extraction `extractVideoFrames` (lines 679–760): `durationProbe` is the result of
`getVideoDuration` (`none` models `null`/`NaN`); the guard of lines 695–698
throws `Invalid video duration`, then the invocations run and lines 741–743
throw `No valid frames could be extracted from the video` when nothing
survived. -/
def extractVideoFrames (durationProbe : Option ℚ) (fc : ℕ)
    (invoke : ℕ → InvokeResult) : Except String (List (ℚ × ℕ)) :=
  match durationProbe with
  | none => Except.error "Invalid video duration"
  | some d =>
    if d ≤ 0 then Except.error "Invalid video duration"
    else
      let kept := serverCollectFrom invoke (serverTsFun d fc) 0 fc
      if kept = [] then
        Except.error "No valid frames could be extracted from the video"
      else Except.ok kept

/- ## Helper lemmas -/

/-- Certifies `frameCount`: a natural `i` satisfies the loop condition
`i < totalFrames` exactly when `i < ⌈totalFrames⌉.toNat`. -/
theorem natCast_lt_iff_lt_ceil_toNat (i : ℕ) (t : ℚ) :
    (i : ℚ) < t ↔ i < (⌈t⌉).toNat := by
  rw [Int.lt_toNat, Int.lt_ceil]
  norm_cast

/-- The extra `frameRate * maxDuration` cap of the source never changes the
integer ceiling of `totalFrames` (for a nonnegative rate), since
`effectiveDuration * frameRate ≤ frameRate * maxDuration`. -/
theorem ceil_totalFramesQ (d r m : ℚ) (hr : 0 ≤ r) :
    ⌈totalFramesQ d r m⌉ = ⌈effectiveDuration d m * r⌉ := by
  unfold totalFramesQ
  rcases le_or_lt ((⌈effectiveDuration d m * r⌉ : ℤ) : ℚ) (r * m) with h | h
  · rw [min_eq_left h, Int.ceil_intCast]
  · rw [min_eq_right h.le]
    have hxy : effectiveDuration d m * r ≤ r * m := by
      have hm : effectiveDuration d m ≤ m := min_le_right _ _
      calc effectiveDuration d m * r ≤ m * r := mul_le_mul_of_nonneg_right hm hr
        _ = r * m := mul_comm _ _
    have h1 : ⌈effectiveDuration d m * r⌉ ≤ ⌈r * m⌉ := Int.ceil_mono hxy
    have h2 : ⌈r * m⌉ ≤ ⌈effectiveDuration d m * r⌉ := Int.ceil_le.mpr h.le
    omega

/-- An uncancelled run of the capture loop keeps exactly the usable indices:
the preview frames are the timestamps of the usable indices in order, and
one progress event fires per usable index. -/
theorem runFrom_none_eq (capture : ℕ → CaptureResult) (totalQ : ℚ)
    (ts : ℕ → ℚ) :
    ∀ fuel i : ℕ,
      runFrom capture none totalQ ts i fuel =
        (((List.range' i fuel).filter (fun j => usableB (capture j))).map ts,
          ((List.range' i fuel).filter (fun j => usableB (capture j))).map
            (fun j => Event.progress (j + 1) totalQ (ts j))) := by
  intro fuel
  induction fuel with
  | zero => intro i; rfl
  | succ n ih =>
    intro i
    rw [List.range'_succ]
    cases hc : capture i with
    | fail =>
      simp [runFrom, cancelledAt, hc, usableB, List.filter_cons, ih (i + 1)]
    | pixels data =>
      by_cases he : isEmptyFrame data = true
      · simp [runFrom, cancelledAt, hc, he, usableB, List.filter_cons,
          ih (i + 1)]
      · rw [Bool.not_eq_true] at he
        simp [runFrom, cancelledAt, hc, he, usableB, List.filter_cons,
          ih (i + 1)]

/-- Cancelling before iteration `k` behaves exactly like the uncancelled
loop truncated to the iterations before `k`. -/
theorem runFrom_cancel (capture : ℕ → CaptureResult) (totalQ : ℚ)
    (ts : ℕ → ℚ) (k : ℕ) :
    ∀ fuel i : ℕ,
      runFrom capture (some k) totalQ ts i fuel =
        runFrom capture none totalQ ts i (min fuel (k - i)) := by
  intro fuel
  induction fuel with
  | zero =>
    intro i
    rw [Nat.zero_min]
    rfl
  | succ n ih =>
    intro i
    by_cases hk : k ≤ i
    · have hmin : min (n + 1) (k - i) = 0 := by omega
      rw [hmin]
      simp [runFrom, cancelledAt, hk]
    · have hmin : min (n + 1) (k - i) = min n (k - (i + 1)) + 1 := by omega
      rw [hmin]
      have hca : ¬ k ≤ i := hk
      cases hc : capture i with
      | fail =>
        simp [runFrom, cancelledAt, hca, hc, ih (i + 1)]
      | pixels data =>
        by_cases he : isEmptyFrame data = true
        · simp [runFrom, cancelledAt, hca, hc, he, ih (i + 1)]
        · rw [Bool.not_eq_true] at he
          simp [runFrom, cancelledAt, hca, hc, he, ih (i + 1)]

/-- The batch collection keeps exactly the invocations that produced a
non-empty artifact. -/
theorem serverCollectFrom_eq (invoke : ℕ → InvokeResult) (ts : ℕ → ℚ) :
    ∀ n i : ℕ,
      serverCollectFrom invoke ts i n =
        ((List.range' i n).filter (fun j => keptB (invoke j))).map
          (fun j => (ts j, resSize (invoke j))) := by
  intro n
  induction n with
  | zero => intro i; rfl
  | succ n ih =>
    intro i
    rw [List.range'_succ]
    cases hc : invoke i with
    | procError =>
      simp [serverCollectFrom, hc, keptB, resSize, List.filter_cons,
        ih (i + 1)]
    | ok size =>
      by_cases hs : 0 < size
      · simp [serverCollectFrom, hc, hs, keptB, resSize, List.filter_cons,
          ih (i + 1)]
      · simp [serverCollectFrom, hc, hs, keptB, resSize, List.filter_cons,
          ih (i + 1)]

/-- Unfolding of `clientRun` for a finite duration passing the
`totalFrames <= 0` guard of `loadVideo`. -/
theorem clientRun_num (q r m : ℚ) (capture : ℕ → CaptureResult)
    (cancelAt : Option ℕ) (h : ¬ totalFramesQ q r m ≤ 0) :
    clientRun (JSNum.num q) r m capture cancelAt =
      Except.ok
        ((runFrom capture cancelAt (totalFramesQ q r m)
            (frameTimestamp q r m) 0 (frameCount q r m)).1,
          (runFrom capture cancelAt (totalFramesQ q r m)
              (frameTimestamp q r m) 0 (frameCount q r m)).2 ++
            [Event.complete
              (runFrom capture cancelAt (totalFramesQ q r m)
                (frameTimestamp q r m) 0 (frameCount q r m)).1]) := by
  have hnum : loadVideoTotalFrames (JSNum.num q) r m =
      JSNum.num (totalFramesQ q r m) := rfl
  have hle : (loadVideoTotalFrames (JSNum.num q) r m).jsLe (JSNum.num 0) =
      false := by
    rw [hnum]
    simp [JSNum.jsLe, h]
  unfold clientRun
  rw [hle]
  simp

/-- Unfolding of `clientRun` for a finite duration failing the guard. -/
theorem clientRun_num_reject (q r m : ℚ) (capture : ℕ → CaptureResult)
    (cancelAt : Option ℕ) (h : totalFramesQ q r m ≤ 0) :
    clientRun (JSNum.num q) r m capture cancelAt =
      Except.error "Invalid video duration or frame count" := by
  have hnum : loadVideoTotalFrames (JSNum.num q) r m =
      JSNum.num (totalFramesQ q r m) := rfl
  have hle : (loadVideoTotalFrames (JSNum.num q) r m).jsLe (JSNum.num 0) =
      true := by
    rw [hnum]
    simp [JSNum.jsLe, h]
  unfold clientRun
  rw [hle]
  simp

/-- C1 (counterexample): the claimed formula
`timestamps[i] = min(i * (effectiveDuration/ceil(effectiveDuration*rate)),
effectiveDuration - 0.1)` does not hold for every positive input: for
`duration = 3`, `rate = 1/2`, `maxDuration = 3` the source's extra cap
`frameRate * maxDuration = 3/2` undercuts `ceil(3/2) = 2`, giving the plan
`[0, 2]` where the claimed formula gives `[0, 3/2]`. -/
theorem c1_counterexample : timestampPlan 3 (1/2) 3 ≠ specPlan 3 (1/2) 3 := by
  have h1 : (⌈(3:ℚ)/2⌉ : ℤ) = 2 := by
    rw [Int.ceil_eq_iff]
    norm_num
  have h2 : ((⌈(3:ℚ)/2⌉ : ℤ) : ℚ) = 2 := by
    rw [h1]
    norm_num
  have h3 : Int.toNat 2 = 2 := rfl
  have hA : timestampPlan 3 (1/2) 3 = [0, 2] := by
    norm_num [timestampPlan, frameCount, frameTimestamp, totalFramesQ,
      effectiveDuration, h1, h2, h3, List.range_succ]
  have hB : specPlan 3 (1/2) 3 = [0, 3/2] := by
    norm_num [specPlan, specTotalFrames, specTimestamp, effectiveDuration,
      h1, h2, h3, List.range_succ]
  rw [hA, hB]
  norm_num

/-- C1 (amended): the Timestamp Planner produces
`timestamps[i] = min(i * (effectiveDuration/totalFrames),
effectiveDuration - 0.1)` with
`totalFrames = min(ceil(effectiveDuration*rate), rate*maxDuration)`; the
claimed formula (with `totalFrames = ceil(effectiveDuration*rate)`) holds
exactly when that ceiling does not exceed `rate * maxDuration` — in
particular at the claimed example `duration = 9.95`, `rate = 2`,
`maxDuration = 30`, where `totalFrames = 20`, `timestamps[0] = 0` and
`timestamps[19] = 9.4525 = 3781/400`. -/
theorem c1_amended :
    (∀ d r m : ℚ,
      ((⌈effectiveDuration d m * r⌉ : ℤ) : ℚ) ≤ r * m →
      timestampPlan d r m = specPlan d r m) ∧
    frameCount (199/20) 2 30 = 20 ∧
    frameTimestamp (199/20) 2 30 0 = 0 ∧
    frameTimestamp (199/20) 2 30 19 = 3781/400 := by
  have h1 : (⌈(199:ℚ)/10⌉ : ℤ) = 20 := by
    rw [Int.ceil_eq_iff]
    norm_num
  have h3 : Int.toNat 20 = 20 := rfl
  refine ⟨?_, ?_, ?_, ?_⟩
  · intro d r m h
    have ht : totalFramesQ d r m = ((⌈effectiveDuration d m * r⌉ : ℤ) : ℚ) :=
      min_eq_left h
    have hts : frameTimestamp d r m = specTimestamp d r m := by
      funext i
      unfold frameTimestamp specTimestamp specTotalFrames
      rw [ht]
    have hfc : frameCount d r m = (specTotalFrames d r m).toNat := by
      unfold frameCount specTotalFrames
      rw [ht, Int.ceil_intCast]
    unfold timestampPlan specPlan
    rw [hts, hfc]
  · norm_num [frameCount, totalFramesQ, effectiveDuration, h1, h3]
  · norm_num [frameTimestamp, totalFramesQ, effectiveDuration, h1]
  · norm_num [frameTimestamp, totalFramesQ, effectiveDuration, h1]

/-- C2 (counterexample): for `duration = 1/20`, `rate = 40`,
`maxDuration = 30` the plan is `[-1/20, -1/20]`: its elements are negative
(outside `[0, effectiveDuration)`) and it is not strictly increasing. -/
theorem c2_counterexample :
    timestampPlan (1/20) 40 30 = [-(1/20), -(1/20)] ∧
    ¬ List.Pairwise (· < ·) (timestampPlan (1/20) 40 30) ∧
    ¬ (∀ x ∈ timestampPlan (1/20) 40 30, 0 ≤ x) := by
  have h3 : Int.toNat 2 = 2 := rfl
  have hA : timestampPlan (1/20) 40 30 = [-(1/20), -(1/20)] := by
    norm_num [timestampPlan, frameCount, frameTimestamp, totalFramesQ,
      effectiveDuration, h3, List.range_succ]
  refine ⟨hA, ?_, ?_⟩
  · rw [hA]
    intro hp
    rcases hp with _ | ⟨hlt, -⟩
    have := hlt (-(1/20)) (by simp)
    norm_num at this
  · rw [hA]
    intro hall
    have := hall (-(1/20)) (by simp)
    norm_num at this

/-- C2 (amended): for all positive `duration`, `rate` and `maxDuration` the
plan length equals `ceil(effectiveDuration * rate)` and the sequence is
nondecreasing with every element `≤ effectiveDuration - 0.1` and
`< effectiveDuration`; all elements are additionally nonnegative provided
`effectiveDuration ≥ 0.1` (otherwise they may be negative, and the
sequence need not be strictly increasing). -/
theorem c2_amended (d r m : ℚ) (hd : 0 < d) (hr : 0 < r) (hm : 0 < m) :
    (timestampPlan d r m).length = (⌈effectiveDuration d m * r⌉).toNat ∧
    List.Pairwise (· ≤ ·) (timestampPlan d r m) ∧
    (∀ x ∈ timestampPlan d r m,
      x ≤ effectiveDuration d m - 1/10 ∧ x < effectiveDuration d m) ∧
    (1/10 ≤ effectiveDuration d m → ∀ x ∈ timestampPlan d r m, 0 ≤ x) := by
  have heff : 0 < effectiveDuration d m := lt_min hd hm
  have hx : 0 < effectiveDuration d m * r := mul_pos heff hr
  have hcx : 0 < ⌈effectiveDuration d m * r⌉ := Int.ceil_pos.mpr hx
  have htq : 0 < totalFramesQ d r m := by
    unfold totalFramesQ
    apply lt_min
    · exact_mod_cast hcx
    · exact mul_pos hr hm
  have hstep : 0 < effectiveDuration d m / totalFramesQ d r m :=
    div_pos heff htq
  have hlt : ∀ i : ℕ, i < frameCount d r m → (i : ℚ) < totalFramesQ d r m :=
    fun i hi => (natCast_lt_iff_lt_ceil_toNat i _).mpr hi
  have hts_lt : ∀ i : ℕ, i < frameCount d r m →
      frameTimestamp d r m i < effectiveDuration d m := by
    intro i hi
    unfold frameTimestamp
    apply lt_of_le_of_lt (min_le_left _ _)
    calc (i : ℚ) * (effectiveDuration d m / totalFramesQ d r m)
        < totalFramesQ d r m * (effectiveDuration d m / totalFramesQ d r m) :=
          mul_lt_mul_of_pos_right (hlt i hi) hstep
      _ = effectiveDuration d m := by
          field_simp
  refine ⟨?_, ?_, ?_, ?_⟩
  · unfold timestampPlan
    rw [List.length_map, List.length_range]
    unfold frameCount
    rw [ceil_totalFramesQ d r m hr.le]
  · unfold timestampPlan
    refine List.Pairwise.map _ ?_ (List.pairwise_lt_range _)
    intro a b hab
    unfold frameTimestamp
    apply min_le_min _ le_rfl
    apply mul_le_mul_of_nonneg_right _ hstep.le
    exact_mod_cast hab.le
  · intro x hmem
    simp only [timestampPlan, List.mem_map, List.mem_range] at hmem
    obtain ⟨i, hi, rfl⟩ := hmem
    exact ⟨min_le_right _ _, hts_lt i hi⟩
  · intro hten x hmem
    simp only [timestampPlan, List.mem_map, List.mem_range] at hmem
    obtain ⟨i, hi, rfl⟩ := hmem
    unfold frameTimestamp
    apply le_min
    · exact mul_nonneg (Nat.cast_nonneg i) hstep.le
    · linarith

/-- C2 (witness): the amended statement at `duration = 2`, `rate = 1`,
`maxDuration = 30`. -/
theorem c2_witness :
    (0:ℚ) < 2 ∧ (0:ℚ) < 1 ∧ (0:ℚ) < 30 ∧
    ((timestampPlan 2 1 30).length = (⌈effectiveDuration 2 30 * 1⌉).toNat ∧
      List.Pairwise (· ≤ ·) (timestampPlan 2 1 30) ∧
      (∀ x ∈ timestampPlan 2 1 30,
        x ≤ effectiveDuration 2 30 - 1/10 ∧ x < effectiveDuration 2 30) ∧
      (1/10 ≤ effectiveDuration 2 30 → ∀ x ∈ timestampPlan 2 1 30, 0 ≤ x)) :=
  ⟨by norm_num, by norm_num, by norm_num,
    c2_amended 2 1 30 (by norm_num) (by norm_num) (by norm_num)⟩

/-- C3 (counterexample): with two planned frames, both captures usable and
cancellation requested before iteration 1, the run still fires a completion
event carrying the single frame captured before cancellation — a partial
result reported through the success path, not a `Cancelled` terminal
state. -/
theorem c3_counterexample :
    clientRun (JSNum.num 2) 1 30 (fun _ => CaptureResult.pixels [1])
        (some 1) =
      Except.ok ([0], [Event.progress 1 2 0, Event.complete [0]]) ∧
    frameCount 2 1 30 = 2 := by
  have h2 : totalFramesQ 2 1 30 = 2 := by
    norm_num [totalFramesQ, effectiveDuration]
  have hfc : frameCount 2 1 30 = 2 := by
    unfold frameCount
    rw [h2]
    have h4 : (⌈(2:ℚ)⌉ : ℤ) = 2 := by norm_num
    rw [h4]
    rfl
  have hts0 : frameTimestamp 2 1 30 0 = 0 := by
    norm_num [frameTimestamp, h2, effectiveDuration]
  refine ⟨?_, hfc⟩
  rw [clientRun_num 2 1 30 _ (some 1) (by rw [h2]; norm_num)]
  rw [runFrom_cancel, Nat.sub_zero, hfc]
  have hmin : min 2 1 = 1 := rfl
  rw [hmin, runFrom_none_eq]
  have hrange : List.range' 0 1 = [0] := rfl
  rw [hrange]
  have husable : usableB ((fun _ => CaptureResult.pixels [1]) 0) = true := rfl
  simp [husable, hts0, h2]

/-- C3 (amended): requesting cancellation before iteration `k` makes the
run behave exactly like the uncancelled run truncated to its first
`min k totalFrames` iterations — no later progress events fire and no
later frames are captured — but the run still terminates through the
normal completion path: `onComplete` fires with the partial preview list
and the partial list is returned as the (successful) result, rather than a
distinct `Cancelled` terminal state. -/
theorem c3_amended (capture : ℕ → CaptureResult) (q r m : ℚ) (k : ℕ)
    (h : ¬ totalFramesQ q r m ≤ 0) :
    clientRun (JSNum.num q) r m capture (some k) =
      Except.ok
        ((runFrom capture none (totalFramesQ q r m) (frameTimestamp q r m) 0
            (min k (frameCount q r m))).1,
          (runFrom capture none (totalFramesQ q r m) (frameTimestamp q r m) 0
              (min k (frameCount q r m))).2 ++
            [Event.complete
              (runFrom capture none (totalFramesQ q r m)
                (frameTimestamp q r m) 0 (min k (frameCount q r m))).1]) := by
  rw [clientRun_num q r m capture (some k) h]
  rw [runFrom_cancel, Nat.sub_zero, Nat.min_comm]

/-- C3 (witness): the amended statement at `duration = 2`, `rate = 1`,
`maxDuration = 30`, all captures usable, cancellation before iteration 1. -/
theorem c3_witness :
    ¬ totalFramesQ 2 1 30 ≤ 0 ∧
    clientRun (JSNum.num 2) 1 30 (fun _ => CaptureResult.pixels [1])
        (some 1) =
      Except.ok
        ((runFrom (fun _ => CaptureResult.pixels [1]) none (totalFramesQ 2 1 30)
            (frameTimestamp 2 1 30) 0 (min 1 (frameCount 2 1 30))).1,
          (runFrom (fun _ => CaptureResult.pixels [1]) none (totalFramesQ 2 1 30)
              (frameTimestamp 2 1 30) 0 (min 1 (frameCount 2 1 30))).2 ++
            [Event.complete
              (runFrom (fun _ => CaptureResult.pixels [1]) none
                (totalFramesQ 2 1 30) (frameTimestamp 2 1 30) 0
                (min 1 (frameCount 2 1 30))).1]) := by
  have h : ¬ totalFramesQ 2 1 30 ≤ 0 := by
    norm_num [totalFramesQ, effectiveDuration]
  exact ⟨h, c3_amended (fun _ => CaptureResult.pixels [1]) 2 1 30 1 h⟩

/-- C4 (counterexample): a run whose two planned captures are both
classified Empty emits no progress event at all — the source `continue`s
past the progress callback (lines 164–167 come before lines 195–201), so a
skipped attempt does not produce `{current: i+1, ...}`. -/
theorem c4_counterexample :
    clientRun (JSNum.num 1) 2 30 (fun _ => CaptureResult.pixels [0]) none =
      Except.ok ([], [Event.complete []]) ∧
    frameCount 1 2 30 = 2 := by
  have h2 : totalFramesQ 1 2 30 = 2 := by
    norm_num [totalFramesQ, effectiveDuration]
  have hfc : frameCount 1 2 30 = 2 := by
    unfold frameCount
    rw [h2]
    have h4 : (⌈(2:ℚ)⌉ : ℤ) = 2 := by norm_num
    rw [h4]
    rfl
  refine ⟨?_, hfc⟩
  rw [clientRun_num 1 2 30 _ none (by rw [h2]; norm_num)]
  rw [runFrom_none_eq, hfc]
  have hrange : List.range' 0 2 = [0, 1] := rfl
  rw [hrange]
  have husable : usableB (CaptureResult.pixels [0]) = false := rfl
  simp [husable]

/-- C4 (amended): in an uncancelled run, the progress event
`{current: i+1, total: totalFrames, time: timestamps[i]}` is emitted for
index `i` if and only if `i` is a planned index whose capture attempt was
usable: attempts skipped as Empty and attempts that threw emit no progress
event. -/
theorem c4_amended (capture : ℕ → CaptureResult) (totalQ : ℚ) (ts : ℕ → ℚ)
    (total i : ℕ) :
    (Event.progress (i + 1) totalQ (ts i) ∈
        (runFrom capture none totalQ ts 0 total).2) ↔
      (i < total ∧ usableB (capture i) = true) := by
  rw [runFrom_none_eq]
  simp only [List.mem_map, List.mem_filter]
  constructor
  · rintro ⟨j, ⟨hmem, hu⟩, heq⟩
    rw [Event.progress.injEq] at heq
    obtain ⟨h1, -, -⟩ := heq
    have hj : j = i := by omega
    subst hj
    rw [List.mem_range'_1] at hmem
    exact ⟨by omega, hu⟩
  · rintro ⟨hi, hu⟩
    refine ⟨i, ⟨?_, hu⟩, rfl⟩
    rw [List.mem_range'_1]
    omega

/-- C5 (counterexample): in the second client extractor, a single failing
`extractFrame` invocation is rethrown by `extractFrameSequence` (lines
759–762) and terminates the whole run with an error — it is not recovered
by skipping the frame. -/
theorem c5_counterexample :
    extractFrameSequence (fun _ => Except.error ()) (fun _ => false) 0 3
        (1/2) (29/10) =
      Except.error () := by
  rw [extractFrameSequence]
  norm_num

/-- C5 (amended): the batch sampler and the first interactive extractor do
recover locally from per-frame problems: the batch run succeeds whenever at
least one invocation produced a non-empty artifact, its
`NoFramesExtracted` error implies that every invocation failed or produced
an empty artifact, and the first interactive extractor's run always reaches
the success path once planning passes, whatever the capture outcomes.  (The
second interactive extractor, by contrast, propagates a single frame
failure — see the counterexample.) -/
theorem c5_amended :
    (∀ (d : ℚ) (fc : ℕ) (invoke : ℕ → InvokeResult), 0 < d →
      (∃ i, i < fc ∧ keptB (invoke i) = true) →
      ∃ l, extractVideoFrames (some d) fc invoke = Except.ok l) ∧
    (∀ (d : ℚ) (fc : ℕ) (invoke : ℕ → InvokeResult), 0 < d →
      extractVideoFrames (some d) fc invoke =
        Except.error "No valid frames could be extracted from the video" →
      ∀ i, i < fc → keptB (invoke i) = false) ∧
    (∀ (q r m : ℚ) (capture : ℕ → CaptureResult) (cancelAt : Option ℕ),
      ¬ totalFramesQ q r m ≤ 0 →
      ∃ p, clientRun (JSNum.num q) r m capture cancelAt = Except.ok p) := by
  refine ⟨?_, ?_, ?_⟩
  · rintro d fc invoke hd ⟨i, hifc, hkept⟩
    simp only [extractVideoFrames]
    rw [if_neg (not_le.mpr hd)]
    have hmem : (serverTsFun d fc i, resSize (invoke i)) ∈
        serverCollectFrom invoke (serverTsFun d fc) 0 fc := by
      rw [serverCollectFrom_eq]
      apply List.mem_map_of_mem
      rw [List.mem_filter, List.mem_range'_1]
      exact ⟨⟨Nat.zero_le i, by omega⟩, hkept⟩
    have hne : serverCollectFrom invoke (serverTsFun d fc) 0 fc ≠ [] := by
      intro hnil
      rw [hnil] at hmem
      exact List.not_mem_nil _ hmem
    rw [if_neg hne]
    exact ⟨_, rfl⟩
  · intro d fc invoke hd herr i hifc
    simp only [extractVideoFrames] at herr
    rw [if_neg (not_le.mpr hd)] at herr
    by_cases hnil : serverCollectFrom invoke (serverTsFun d fc) 0 fc = []
    · by_contra hkept
      rw [Bool.not_eq_false] at hkept
      have hmem : (serverTsFun d fc i, resSize (invoke i)) ∈
          serverCollectFrom invoke (serverTsFun d fc) 0 fc := by
        rw [serverCollectFrom_eq]
        apply List.mem_map_of_mem
        rw [List.mem_filter, List.mem_range'_1]
        exact ⟨⟨Nat.zero_le i, by omega⟩, hkept⟩
      rw [hnil] at hmem
      exact List.not_mem_nil _ hmem
    · rw [if_neg hnil] at herr
      exact absurd herr (by simp)
  · intro q r m capture cancelAt h
    exact ⟨_, clientRun_num q r m capture cancelAt h⟩

/-- C6 (confirmed): a captured buffer is classified Empty exactly when
every sampled channel value is zero; an uncancelled run keeps exactly the
usable attempts — each planned index is attempted once (no retry) and an
Empty attempt contributes no frame record — and a concrete run with one
Empty and one usable capture returns 1 frame out of the 2 planned. -/
theorem c6_confirmed :
    (∀ data : List ℕ, isEmptyFrame data = true ↔ ∀ c ∈ data, c = 0) ∧
    (∀ (capture : ℕ → CaptureResult) (totalQ : ℚ) (ts : ℕ → ℚ) (total : ℕ),
      (runFrom capture none totalQ ts 0 total).1 =
        ((List.range total).filter (fun j => usableB (capture j))).map ts) ∧
    (clientRun (JSNum.num 1) 2 30
        (fun i => if i = 0 then CaptureResult.pixels [0]
          else CaptureResult.pixels [5]) none =
      Except.ok ([1/2], [Event.progress 2 2 (1/2), Event.complete [1/2]]) ∧
      frameCount 1 2 30 = 2) := by
  refine ⟨?_, ?_, ?_, ?_⟩
  · intro data
    unfold isEmptyFrame
    simp
  · intro capture totalQ ts total
    rw [runFrom_none_eq, List.range_eq_range']
  · have h2 : totalFramesQ 1 2 30 = 2 := by
      norm_num [totalFramesQ, effectiveDuration]
    have hfc : frameCount 1 2 30 = 2 := by
      unfold frameCount
      rw [h2]
      have h4 : (⌈(2:ℚ)⌉ : ℤ) = 2 := by norm_num
      rw [h4]
      rfl
    have hts1 : frameTimestamp 1 2 30 1 = 1/2 := by
      norm_num [frameTimestamp, h2, effectiveDuration]
    rw [clientRun_num 1 2 30 _ none (by rw [h2]; norm_num)]
    rw [runFrom_none_eq, hfc]
    have hrange : List.range' 0 2 = [0, 1] := rfl
    rw [hrange]
    have hu0 : usableB (CaptureResult.pixels [0]) = false := rfl
    have hu5 : usableB (CaptureResult.pixels [5]) = true := rfl
    simp [hu0, hu5, hts1, h2]
  · unfold frameCount
    have h2 : totalFramesQ 1 2 30 = 2 := by
      norm_num [totalFramesQ, effectiveDuration]
    rw [h2]
    have h4 : (⌈(2:ℚ)⌉ : ℤ) = 2 := by norm_num
    rw [h4]
    rfl

/-- C7 (counterexample): a `NaN` (non-finite) duration is not rejected by
the client planner: `NaN <= 0` is false so the guard passes, the loop
condition `i < NaN` is false so no capture is attempted, and the run
completes successfully with zero frames instead of failing with
`InvalidDuration`. -/
theorem c7_counterexample :
    clientRun JSNum.nan 2 30 (fun _ => CaptureResult.fail) none =
      Except.ok ([], [Event.complete []]) := rfl

/-- C7 (amended): for every finite `duration ≤ 0` (with `rate > 0`) and,
more generally, whenever `ceil(effectiveDuration * rate) ≤ 0`, the client
run fails before any capture with its single planning error; the server
fails before any invocation with `Invalid video duration` when the probe
yields no duration or a nonpositive one.  A non-finite (`NaN`) duration,
however, is not rejected by the client (see the counterexample). -/
theorem c7_amended :
    (∀ (d r m : ℚ) (capture : ℕ → CaptureResult) (cancelAt : Option ℕ),
      d ≤ 0 → 0 < r →
      clientRun (JSNum.num d) r m capture cancelAt =
        Except.error "Invalid video duration or frame count") ∧
    (∀ (d r m : ℚ) (capture : ℕ → CaptureResult) (cancelAt : Option ℕ),
      ⌈effectiveDuration d m * r⌉ ≤ 0 →
      clientRun (JSNum.num d) r m capture cancelAt =
        Except.error "Invalid video duration or frame count") ∧
    (∀ (fc : ℕ) (invoke : ℕ → InvokeResult),
      extractVideoFrames none fc invoke =
        Except.error "Invalid video duration") ∧
    (∀ (d : ℚ) (fc : ℕ) (invoke : ℕ → InvokeResult), d ≤ 0 →
      extractVideoFrames (some d) fc invoke =
        Except.error "Invalid video duration") := by
  have key : ∀ (d r m : ℚ) (capture : ℕ → CaptureResult)
      (cancelAt : Option ℕ), ⌈effectiveDuration d m * r⌉ ≤ 0 →
      clientRun (JSNum.num d) r m capture cancelAt =
        Except.error "Invalid video duration or frame count" := by
    intro d r m capture cancelAt hceil
    apply clientRun_num_reject
    unfold totalFramesQ
    have h1 : ((⌈effectiveDuration d m * r⌉ : ℤ) : ℚ) ≤ 0 := by
      exact_mod_cast hceil
    exact le_trans (min_le_left _ _) h1
  refine ⟨?_, key, ?_, ?_⟩
  · intro d r m capture cancelAt hd hr
    apply key
    have heff : effectiveDuration d m ≤ 0 := le_trans (min_le_left _ _) hd
    have hx : effectiveDuration d m * r ≤ 0 := by
      calc effectiveDuration d m * r ≤ 0 * r :=
            mul_le_mul_of_nonneg_right heff hr.le
        _ = 0 := zero_mul r
    exact Int.ceil_le.mpr (by exact_mod_cast hx)
  · intro fc invoke
    rfl
  · intro d fc invoke hd
    simp only [extractVideoFrames]
    rw [if_pos hd]

/-- C8 (counterexample): the batch backend does not compute the
interactive planner's list: for `duration = 9.95` the batch plan with its
default `frameCount = 10` has 10 entries while the interactive plan at
`rate = 2`, `maxDuration = 30` has 20. -/
theorem c8_counterexample :
    serverTimestamps (199/20) 10 ≠ timestampPlan (199/20) 2 30 := by
  intro h
  have h1 : (serverTimestamps (199/20) 10).length = 10 := by
    unfold serverTimestamps
    rw [List.length_map, List.length_range]
  have hceil : (⌈(199:ℚ)/10⌉ : ℤ) = 20 := by
    rw [Int.ceil_eq_iff]
    norm_num
  have hfc : frameCount (199/20) 2 30 = 20 := by
    unfold frameCount
    have h2q : totalFramesQ (199/20) 2 30 = 20 := by
      norm_num [totalFramesQ, effectiveDuration, hceil]
    rw [h2q]
    have h4 : (⌈(20:ℚ)⌉ : ℤ) = 20 := by norm_num
    rw [h4]
    rfl
  have h2 : (timestampPlan (199/20) 2 30).length = 20 := by
    unfold timestampPlan
    rw [List.length_map, List.length_range, hfc]
  rw [h, h2] at h1
  norm_num at h1

/-- C8 (amended): the two backends do not share a Timestamp Planner.  The
batch backend plans `frameCount` many timestamps
`min(floor(i * duration/(frameCount+1)), duration - 0.1)` for
`i = 1..frameCount` from a caller-supplied `frameCount` (default 10),
ignoring `rate` and `maxDuration`; every entry is consequently an integer
unless it is the clamp value `duration - 0.1`, and even at an equal length
(`frameCount = 20` against the interactive plan for `duration = 9.95`,
`rate = 2`, `maxDuration = 30`) the two lists differ. -/
theorem c8_amended :
    (∀ (d : ℚ) (fc : ℕ), (serverTimestamps d fc).length = fc) ∧
    (∀ (d : ℚ) (fc : ℕ), ∀ x ∈ serverTimestamps d fc,
      (∃ z : ℤ, x = (z : ℚ)) ∨ x = d - 1/10) ∧
    serverTimestamps (199/20) 20 ≠ timestampPlan (199/20) 2 30 := by
  refine ⟨?_, ?_, ?_⟩
  · intro d fc
    unfold serverTimestamps
    rw [List.length_map, List.length_range]
  · intro d fc x hmem
    simp only [serverTimestamps, List.mem_map, List.mem_range] at hmem
    obtain ⟨i, -, rfl⟩ := hmem
    unfold serverTsFun
    rcases min_choice ((⌊d / ((fc : ℚ) + 1) * ((i : ℚ) + 1)⌋ : ℤ) : ℚ)
        (d - 1/10) with h | h
    · exact Or.inl ⟨_, h⟩
    · exact Or.inr h
  · intro h
    have hceil : (⌈(199:ℚ)/10⌉ : ℤ) = 20 := by
      rw [Int.ceil_eq_iff]
      norm_num
    have h2q : totalFramesQ (199/20) 2 30 = 20 := by
      norm_num [totalFramesQ, effectiveDuration, hceil]
    have hfc : frameCount (199/20) 2 30 = 20 := by
      unfold frameCount
      rw [h2q]
      have h4 : (⌈(20:ℚ)⌉ : ℤ) = 20 := by norm_num
      rw [h4]
      rfl
    have hs : (serverTimestamps (199/20) 20)[1]? =
        some (serverTsFun (199/20) 20 1) := by
      unfold serverTimestamps
      rw [List.getElem?_map, List.getElem?_range (by norm_num : (1:ℕ) < 20)]
      rfl
    have hc : (timestampPlan (199/20) 2 30)[1]? =
        some (frameTimestamp (199/20) 2 30 1) := by
      unfold timestampPlan
      rw [List.getElem?_map,
        List.getElem?_range (by rw [hfc]; norm_num : (1:ℕ) < frameCount (199/20) 2 30)]
      rfl
    have hsv : serverTsFun (199/20) 20 1 = 0 := by
      have hfl : (⌊(199:ℚ)/210⌋ : ℤ) = 0 := by
        rw [Int.floor_eq_iff]
        norm_num
      have harg : (199:ℚ)/20 / ((20:ℕ) + 1) * ((1:ℕ) + 1) = 199/210 := by
        norm_num
      unfold serverTsFun
      rw [harg, hfl]
      norm_num
    have hcv : frameTimestamp (199/20) 2 30 1 = 199/400 := by
      norm_num [frameTimestamp, h2q, effectiveDuration]
    rw [h, hc] at hs
    rw [hsv, hcv] at hs
    have hcontra : (199 : ℚ)/400 = 0 := by
      injection hs
    norm_num at hcontra

/-- C9 (confirmed): calling `extractFrames` while a run is active throws
`Extraction already in progress` before any state is touched, leaving the
active run's state unchanged. -/
theorem c9_confirmed (s : ExtractorState) (options : ExtractOptions)
    (h : s.isProcessing = true) :
    extractFramesEntry s options =
      (Except.error "Extraction already in progress", s) := by
  unfold extractFramesEntry
  rw [h]
  simp

/-- C9 (witness): the guard at a concrete busy extractor state. -/
theorem c9_witness :
    (ExtractorState.mk true [] [] 2 30 (7/10)).isProcessing = true ∧
    extractFramesEntry (ExtractorState.mk true [] [] 2 30 (7/10))
        (ExtractOptions.mk none none none) =
      (Except.error "Extraction already in progress",
        ExtractorState.mk true [] [] 2 30 (7/10)) :=
  ⟨rfl, c9_confirmed (ExtractorState.mk true [] [] 2 30 (7/10))
    (ExtractOptions.mk none none none) rfl⟩

/-- C10 (confirmed): passing `0` for `frameRate`, `maxDuration` or
`quality` in the options of the second extractor's `extractFrames` is
silently ignored — the falsy `0` makes `options.x || this.x` fall back to
the previously configured value — while any nonzero value is applied. -/
theorem c10_confirmed (s : ExtractorState) (h : s.isProcessing = false) :
    (extractFramesEntry s
        (ExtractOptions.mk (some 0) (some 0) (some 0))).2.frameRate =
      s.frameRate ∧
    (extractFramesEntry s
        (ExtractOptions.mk (some 0) (some 0) (some 0))).2.maxDuration =
      s.maxDuration ∧
    (extractFramesEntry s
        (ExtractOptions.mk (some 0) (some 0) (some 0))).2.quality =
      s.quality ∧
    (∀ v : ℚ, v ≠ 0 → orFallback (some v) s.quality = v) := by
  unfold extractFramesEntry
  rw [h]
  refine ⟨by simp [orFallback], by simp [orFallback], by simp [orFallback], ?_⟩
  intro v hv
  simp [orFallback, hv]

/-- C10 (witness): the zero options at a concrete idle extractor state. -/
theorem c10_witness :
    (ExtractorState.mk false [] [] 2 30 (7/10)).isProcessing = false ∧
    ((extractFramesEntry (ExtractorState.mk false [] [] 2 30 (7/10))
        (ExtractOptions.mk (some 0) (some 0) (some 0))).2.frameRate =
      (ExtractorState.mk false [] [] 2 30 (7/10)).frameRate ∧
    (extractFramesEntry (ExtractorState.mk false [] [] 2 30 (7/10))
        (ExtractOptions.mk (some 0) (some 0) (some 0))).2.maxDuration =
      (ExtractorState.mk false [] [] 2 30 (7/10)).maxDuration ∧
    (extractFramesEntry (ExtractorState.mk false [] [] 2 30 (7/10))
        (ExtractOptions.mk (some 0) (some 0) (some 0))).2.quality =
      (ExtractorState.mk false [] [] 2 30 (7/10)).quality ∧
    (∀ v : ℚ, v ≠ 0 →
      orFallback (some v) (ExtractorState.mk false [] [] 2 30 (7/10)).quality =
        v)) :=
  ⟨rfl, c10_confirmed (ExtractorState.mk false [] [] 2 30 (7/10)) rfl⟩
